import Mathlib

/-!
Verification of the MCP toolset core of `deepagents_cli/mcp_tools.py`.

The Python module is shallowly embedded: parsed JSON documents become the
`PyVal` inductive (as produced by `json.loads`, so mapping keys are strings),
pure helpers (`extract_mcp_servers`, `_format_call_tool_result`,
`_normalize_stdio_command`, shell lexing) become Lean functions, and the
effectful discovery pass `open_mcp_toolset` becomes a function over an explicit
`World` that supplies the outcome of each server's connection attempt.
Filesystem access (`find_mcp_config_path`, reading the config file) is
externalized into explicit arguments, and the `AsyncExitStack` is modelled as
the ordered list of acquired resources, released in reverse order at scope
exit.
-/

namespace McpTools

/-- A parsed JSON value as returned by `json.loads` (mapping keys are always
strings there); also used for Python values flowing through the module. -/
inductive PyVal where
  | str (s : String)
  | int (n : Int)
  | bool (b : Bool)
  | null
  | list (xs : List PyVal)
  | dict (kvs : List (String × PyVal))

/-- `d.get(k)` on a Python dict: the value stored under `k`, if any.
Parsed JSON objects have unique keys, so first-match lookup is exact. -/
def dictGet (kvs : List (String × PyVal)) (k : String) : Option PyVal :=
  (kvs.find? (fun kv => kv.1 == k)).map (fun kv => kv.2)

/-- `d.get(k)` where an absent key yields Python `None` (modelled `.null`). -/
def dictGetD (kvs : List (String × PyVal)) (k : String) : PyVal :=
  (dictGet kvs k).getD .null

/-- `k in d` on a Python dict. -/
def hasKey (kvs : List (String × PyVal)) (k : String) : Bool :=
  kvs.any (fun kv => kv.1 == k)

/-- `isinstance(v, dict)`. -/
def isDict : PyVal → Bool
  | .dict _ => true
  | _ => false

/-- The entries of a value known to be a dict (`[]` otherwise). -/
def asDict : PyVal → List (String × PyVal)
  | .dict kvs => kvs
  | _ => []

/-- The reserved metadata keys skipped by the flattened-config fallback. -/
def metaKeys : List String := ["$schema", "version", "inputs", "env"]

/-- `_looks_like_server`: the candidate has a `command`, `url` or `type` key. -/
def looksLikeServer (cfg : List (String × PyVal)) : Bool :=
  hasKey cfg "command" || hasKey cfg "url" || hasKey cfg "type"

/-- `data.get(key)` when the result is checked with `isinstance(..., dict)`:
the server group stored under `key`, if it is a mapping. -/
def groupField (kvs : List (String × PyVal)) (k : String) :
    Option (List (String × PyVal)) :=
  match dictGet kvs k with
  | some (.dict servers) => some servers
  | _ => none

/-- The `candidate` comprehension of `extract_mcp_servers`: the top-level
entries minus the reserved metadata keys (keys of a parsed document are
strings, so the `isinstance(k, str)` guard always holds). -/
def candidateServers (kvs : List (String × PyVal)) : List (String × PyVal) :=
  kvs.filter (fun kv => !(metaKeys.contains kv.1))

/-- The flattened-root-map fallback of `extract_mcp_servers` (lines 71-84):
drop the metadata keys, require a non-empty all-dict candidate map whose every
entry looks like a server. -/
def flattenedServers (kvs : List (String × PyVal)) : List (String × PyVal) :=
  if (candidateServers kvs).isEmpty
      || !((candidateServers kvs).all (fun kv => isDict kv.2)) then
    []
  else if ((candidateServers kvs).filter (fun kv => isDict kv.2)).all
      (fun kv => looksLikeServer (asDict kv.2)) then
    candidateServers kvs
  else
    []

/-- `extract_mcp_servers`: extract MCP server definitions from the three
supported config shapes (`mcpServers` group, `servers` group, or a simplified
root map). -/
def extract_mcp_servers (data : PyVal) : List (String × PyVal) :=
  if !(isDict data) then
    []
  else
    let kvs := asDict data
    match groupField kvs "mcpServers" with
    | some servers => servers
    | none =>
      match groupField kvs "servers" with
      | some servers => servers
      | none => flattenedServers kvs

/-- The flattened-fallback as the spec words it: at least one candidate, every
candidate a mapping, every candidate with a `command`/`url`/`type` key. -/
def specFlattenedServers (kvs : List (String × PyVal)) : List (String × PyVal) :=
  if !(candidateServers kvs).isEmpty
      && (candidateServers kvs).all (fun kv => isDict kv.2)
      && (candidateServers kvs).all (fun kv => looksLikeServer (asDict kv.2)) then
    candidateServers kvs
  else
    []

/-- The whole normalization contract as the spec words it; used only to compare
against `extract_mcp_servers`. -/
def specExtractServers (data : PyVal) : List (String × PyVal) :=
  if !(isDict data) then
    []
  else
    let kvs := asDict data
    match groupField kvs "mcpServers" with
    | some servers => servers
    | none =>
      match groupField kvs "servers" with
      | some servers => servers
      | none => specFlattenedServers kvs

/-- Python truthiness (`bool(v)`) for the embedded values. -/
def pyTruthy : PyVal → Bool
  | .str s => !s.isEmpty
  | .int n => n != 0
  | .bool b => b
  | .null => false
  | .list xs => !xs.isEmpty
  | .dict kvs => !kvs.isEmpty

/-- Two lowercase hex digits, for control-character escapes. -/
def hexDigit (n : Nat) : Char :=
  if n < 10 then Char.ofNat (48 + n) else Char.ofNat (87 + n)

/-- `repr` of a Python string: quoted, preferring single quotes, with
backslash escapes (modelled for ASCII payloads). -/
def pyReprStr (s : String) : String :=
  let useDouble := s.data.contains '\'' && !(s.data.contains '"')
  let q : Char := if useDouble then '"' else '\''
  let esc : Char → String := fun c =>
    if c = '\\' then "\\\\"
    else if c = q then "\\" ++ String.singleton q
    else if c = '\n' then "\\n"
    else if c = '\r' then "\\r"
    else if c = '\t' then "\\t"
    else if c.val < 32 || c.val = 127 then
      "\\x" ++ String.mk [hexDigit (c.toNat / 16), hexDigit (c.toNat % 16)]
    else String.singleton c
  String.singleton q ++ String.join (s.data.map esc) ++ String.singleton q

/-- `repr` of a Python value (containers print their items with `repr`). -/
def pyRepr : PyVal → String
  | .str s => pyReprStr s
  | .int n => toString n
  | .bool b => if b then "True" else "False"
  | .null => "None"
  | .list xs =>
    "[" ++ String.intercalate ", " (xs.attach.map (fun x => pyRepr x.1)) ++ "]"
  | .dict kvs =>
    "\x7b" ++ String.intercalate ", "
      (kvs.attach.map (fun kv => pyReprStr kv.1.1 ++ ": " ++ pyRepr kv.1.2))
      ++ "\x7d"
termination_by v => sizeOf v
decreasing_by
  · have h := List.sizeOf_lt_of_mem x.2
    simp only [PyVal.list.sizeOf_spec]
    omega
  · obtain ⟨⟨k, v⟩, hkv⟩ := kv
    have h := List.sizeOf_lt_of_mem hkv
    simp only [Prod.mk.sizeOf_spec] at h
    simp only [PyVal.dict.sizeOf_spec]
    omega

/-- `str(v)` for a Python value. -/
def pyStr : PyVal → String
  | .str s => s
  | .int n => toString n
  | .bool b => if b then "True" else "False"
  | .null => "None"
  | .list xs => pyRepr (.list xs)
  | .dict kvs => pyRepr (.dict kvs)

/-- One escaped character of `json.dumps(..., ensure_ascii=False)`: only the
quote, the backslash and control characters are escaped. -/
def jsonEscapeChar (c : Char) : String :=
  if c = '"' then "\\\""
  else if c = '\\' then "\\\\"
  else if c = '\n' then "\\n"
  else if c = '\t' then "\\t"
  else if c = '\r' then "\\r"
  else if c.val = 8 then "\\b"
  else if c.val = 12 then "\\f"
  else if c.val < 32 then
    "\\u00" ++ String.mk [hexDigit (c.toNat / 16), hexDigit (c.toNat % 16)]
  else String.singleton c

/-- A JSON string literal (non-ASCII characters kept as-is). -/
def jsonQuote (s : String) : String :=
  "\"" ++ String.join (s.data.map jsonEscapeChar) ++ "\""

/-- The indentation prefix at nesting level `lvl` for `indent=2`. -/
def jsonIndent (lvl : Nat) : String :=
  String.mk (List.replicate (2 * lvl) ' ')

/-- `json.dumps(v, indent=2, ensure_ascii=False)` at nesting level `lvl`
(with an indent, the item separator is `",\n"` and the key separator `": "`).
-/
def pyJsonDumps (lvl : Nat) : PyVal → String
  | .str s => jsonQuote s
  | .int n => toString n
  | .bool b => if b then "true" else "false"
  | .null => "null"
  | .list xs =>
    if xs.isEmpty then "[]"
    else
      "[\n" ++
      String.intercalate ",\n"
        (xs.attach.map (fun x => jsonIndent (lvl + 1) ++ pyJsonDumps (lvl + 1) x.1))
      ++ "\n" ++ jsonIndent lvl ++ "]"
  | .dict kvs =>
    if kvs.isEmpty then "\x7b\x7d"
    else
      "\x7b\n" ++
      String.intercalate ",\n"
        (kvs.attach.map (fun kv =>
          jsonIndent (lvl + 1) ++ jsonQuote kv.1.1 ++ ": "
            ++ pyJsonDumps (lvl + 1) kv.1.2))
      ++ "\n" ++ jsonIndent lvl ++ "\x7d"
termination_by v => sizeOf v
decreasing_by
  · have h := List.sizeOf_lt_of_mem x.2
    simp only [PyVal.list.sizeOf_spec]
    omega
  · obtain ⟨⟨k, v⟩, hkv⟩ := kv
    have h := List.sizeOf_lt_of_mem hkv
    simp only [Prod.mk.sizeOf_spec] at h
    simp only [PyVal.dict.sizeOf_spec]
    omega

/-- One content block of a `CallToolResult`, seen through the duck-typed
accesses of `_format_call_tool_result`: its `type` marker (if any), its `text`
attribute (if any), its `model_dump_json()` serialization when the block
offers one, and its generic `repr`. -/
structure ContentBlock where
  type : Option String
  text : Option PyVal
  modelDumpJson : Option String
  reprStr : String

/-- An MCP `CallToolResult`, seen through the duck-typed accesses of the
module: the error flag, the content blocks (`None` or a list), and the
optional structured payload. -/
structure CallToolResult where
  isError : Bool
  content : Option (List ContentBlock)
  structuredContent : Option PyVal

/-- The per-block part of `_format_call_tool_result` (lines 100-109): a
`"text"`-typed block contributes `str(getattr(block, "text", ""))`; any other
block falls back to `model_dump_json()` when available, else `repr(block)`. -/
def formatBlock (b : ContentBlock) : String :=
  if b.type == some "text" then
    pyStr (b.text.getD (.str ""))
  else
    match b.modelDumpJson with
    | some s => s
    | none => b.reprStr

/-- `_format_call_tool_result`: structured payload first, serialized as
indented non-ASCII-preserving JSON; else the newline-join of the non-empty
per-block parts; `""` when the content is absent or empty (falsy). -/
def formatCallToolResult (r : CallToolResult) : String :=
  match r.structuredContent with
  | some v => pyJsonDumps 0 v
  | none =>
    match r.content with
    | none => ""
    | some blocks =>
      if blocks.isEmpty then ""
      else
        String.intercalate "\n"
          ((blocks.map formatBlock).filter (fun p => !p.isEmpty))

/-- The per-block text as the spec words it. -/
def specBlockText (b : ContentBlock) : String :=
  if b.type == some "text" then pyStr (b.text.getD (.str ""))
  else b.modelDumpJson.getD b.reprStr

/-- The result-normalization contract as the spec words it: structured payload
present — its indented JSON, content blocks ignored; else blocks present —
newline-join of the non-empty per-block texts; neither present — the empty
string. Used only to compare against `formatCallToolResult`. -/
def specFormatResult (r : CallToolResult) : String :=
  match r.structuredContent with
  | some v => pyJsonDumps 0 v
  | none =>
    match r.content with
    | some (b :: bs) =>
      String.intercalate "\n"
        (((b :: bs).map specBlockText).filter (fun p => !p.isEmpty))
    | _ => ""

/-- The observable behaviour of one `_call_mcp_tool` invocation: the name and
arguments forwarded to the owning session's `call_tool`, and the returned or
raised (`ToolException`) outcome. -/
structure ToolCallTrace where
  calledName : String
  calledArgs : List (String × PyVal)
  outcome : Except String String

/-- `_call_mcp_tool` (lines 244-254): forward the keyword arguments to the
session's `call_tool` under the tool's original name; on an error-flagged
outcome raise `ToolException` with the normalized text (or the fixed fallback
when that text is falsy); otherwise return the normalized text. The session is
modelled as its `call_tool` function. -/
def callMcpTool (sessionCall : String → List (String × PyVal) → CallToolResult)
    (mcpToolName : String) (kwargs : List (String × PyVal)) : ToolCallTrace :=
  let result := sessionCall mcpToolName kwargs
  let outcome : Except String String :=
    if result.isError then
      Except.error
        (if !(formatCallToolResult result).isEmpty then formatCallToolResult result
         else "MCP tool call failed")
    else
      Except.ok (formatCallToolResult result)
  ⟨mcpToolName, kwargs, outcome⟩

/-- `str.isspace` membership test for one character (the ASCII whitespace
characters plus the Unicode spaces Python recognizes). -/
def pyIsSpace (c : Char) : Bool :=
  c.val == 32 || (9 ≤ c.val && c.val ≤ 13) || (28 ≤ c.val && c.val ≤ 31)
    || c.val == 133 || c.val == 160 || c.val == 0x1680
    || (0x2000 ≤ c.val && c.val ≤ 0x200A)
    || c.val == 0x2028 || c.val == 0x2029 || c.val == 0x202F
    || c.val == 0x205F || c.val == 0x3000

/-- The token separators of `shlex` (`' \t\r\n'`). -/
def shWhitespace (c : Char) : Bool :=
  c == ' ' || c == '\t' || c == '\r' || c == '\n'

/-- The lexer state of `shlex` in POSIX mode with `whitespace_split=True`:
between tokens, inside a word, inside single or double quotes, or after a
backslash (remembering whether it occurred inside double quotes, where only
the backslash and the double quote are escapable). -/
inductive ShMode where
  | between
  | word
  | squote
  | dquote
  | escWord
  | escDquote

/-- One pass of the `shlex` state machine: remaining input, current mode,
token accumulator, whether the current token saw a quote, tokens so far.
Fails like `shlex.split` on an unterminated quote or a trailing backslash. -/
def shlexRun : List Char → ShMode → String → Bool → List String →
    Except String (List String)
  | [], .between, _, _, acc => .ok acc
  | [], .word, tok, quoted, acc =>
    if !tok.isEmpty || quoted then .ok (acc ++ [tok]) else .ok acc
  | [], .squote, _, _, _ => .error "No closing quotation"
  | [], .dquote, _, _, _ => .error "No closing quotation"
  | [], .escWord, _, _, _ => .error "No escaped character"
  | [], .escDquote, _, _, _ => .error "No escaped character"
  | c :: rest, .between, tok, quoted, acc =>
    if shWhitespace c then shlexRun rest .between tok quoted acc
    else if c == '\\' then shlexRun rest .escWord tok quoted acc
    else if c == '\'' then shlexRun rest .squote tok quoted acc
    else if c == '"' then shlexRun rest .dquote tok quoted acc
    else shlexRun rest .word (tok.push c) quoted acc
  | c :: rest, .word, tok, quoted, acc =>
    if shWhitespace c then
      if !tok.isEmpty || quoted then shlexRun rest .between "" false (acc ++ [tok])
      else shlexRun rest .between "" false acc
    else if c == '\\' then shlexRun rest .escWord tok quoted acc
    else if c == '\'' then shlexRun rest .squote tok quoted acc
    else if c == '"' then shlexRun rest .dquote tok quoted acc
    else shlexRun rest .word (tok.push c) quoted acc
  | c :: rest, .squote, tok, _, acc =>
    if c == '\'' then shlexRun rest .word tok true acc
    else shlexRun rest .squote (tok.push c) true acc
  | c :: rest, .dquote, tok, _, acc =>
    if c == '"' then shlexRun rest .word tok true acc
    else if c == '\\' then shlexRun rest .escDquote tok true acc
    else shlexRun rest .dquote (tok.push c) true acc
  | c :: rest, .escWord, tok, quoted, acc =>
    shlexRun rest .word (tok.push c) quoted acc
  | c :: rest, .escDquote, tok, quoted, acc =>
    if c == '\\' || c == '"' then shlexRun rest .dquote (tok.push c) quoted acc
    else shlexRun rest .dquote ((tok.push '\\').push c) quoted acc

/-- `shlex.split(s)` (POSIX rules, `comments=False`). -/
def shlexSplit (s : String) : Except String (List String) :=
  shlexRun s.data .between "" false []

/-- `_normalize_stdio_command` (lines 113-131): keep an explicit
command+args pair as given; shell-lex a lone whitespace-bearing command
string; errors propagate the `ValueError` raised by `shlex.split`. -/
def normalizeStdioCommand (rawCommand rawArgs : PyVal) :
    Except String (String × List String) :=
  let command := match rawCommand with | .str s => s | _ => ""
  let args := (match rawArgs with | .list xs => xs | _ => []).map pyStr
  if !command.isEmpty && !args.isEmpty then
    .ok (command, args)
  else if !command.isEmpty && args.isEmpty && command.data.any pyIsSpace then
    match shlexSplit command with
    | .error e => .error e
    | .ok [] => .ok (command, args)
    | .ok (t :: ts) => .ok (t, ts)
  else
    .ok (command, args)

/-- Python `v == s` against a string literal: true exactly when `v` is that
string (no JSON value of another shape compares equal to a `str`). -/
def isStrVal (v : PyVal) (s : String) : Bool :=
  match v with
  | .str t => t == s
  | _ => false

/-- A raised Python exception as rendered by the module's error strings:
`type(e).__name__` and `str(e)`. -/
structure PyErr where
  typeName : String
  msg : String

/-- The parameters the per-server branch of `open_mcp_toolset` hands to the
transport binding it opens: `StdioServerParameters` + `stdio_client`,
`sse_client(url, headers=...)`, or `streamable_http_client(url)` (which
receives the URL alone). -/
inductive Transport where
  | stdio (command : String) (args : List String)
      (env : Option (List (String × String))) (cwd : String)
  | sse (url : String) (headers : Option (List (String × PyVal)))
  | http (url : String)

/-- `env={str(k): str(v) for k, v in (env_dict or {}).items()} or None`:
string-coerced pairs, with an empty result collapsed to `None`. -/
def coerceEnv (envDict : Option (List (String × PyVal))) :
    Option (List (String × String)) :=
  match envDict with
  | none => none
  | some kvs =>
    if kvs.isEmpty then none else some (kvs.map (fun kv => (kv.1, pyStr kv.2)))

/-- `headers_typed` (lines 208-212): the `headers` mapping when it is a
non-empty dict, else `None` (keys of a parsed mapping are already strings). -/
def coerceHeaders (cfg : List (String × PyVal)) : Option (List (String × PyVal)) :=
  match dictGet cfg "headers" with
  | some (.dict kvs) => if kvs.isEmpty then none else some kvs
  | _ => none

/-- `env_dict = env if isinstance(env, dict) else None`. -/
def envDictOf (cfg : List (String × PyVal)) : Option (List (String × PyVal)) :=
  match dictGet cfg "env" with
  | some (.dict kvs) => some kvs
  | _ => none

/-- The transport-selection part of the per-server branch (lines 187-224):
a `command` key selects stdio (after `_normalize_stdio_command`, requiring a
non-empty executable), else a `url` key selects SSE when the `type` marker
equals `"sse"` and streamable HTTP otherwise, else the branch raises. -/
def selectTransport (startPath : String) (cfg : List (String × PyVal)) :
    Except PyErr Transport :=
  if hasKey cfg "command" then
    match normalizeStdioCommand (dictGetD cfg "command") (dictGetD cfg "args") with
    | .error e => .error ⟨"ValueError", e⟩
    | .ok (command, args) =>
      if command.isEmpty then
        .error ⟨"ValueError", "Missing 'command' for stdio MCP server"⟩
      else
        .ok (.stdio command args (coerceEnv (envDictOf cfg)) startPath)
  else if hasKey cfg "url" then
    match dictGetD cfg "url" with
    | .str url =>
      if url.isEmpty then
        .error ⟨"ValueError", "Missing 'url' for HTTP/SSE MCP server"⟩
      else if isStrVal (dictGetD cfg "type") "sse" then
        .ok (.sse url (coerceHeaders cfg))
      else
        .ok (.http url)
    | _ => .error ⟨"ValueError", "Missing 'url' for HTTP/SSE MCP server"⟩
  else
    .error ⟨"ValueError", "Expected either 'command' or 'url' in MCP server config"⟩

/-- One remote capability as reported by `session.list_tools()`. -/
structure McpToolDef where
  name : String
  description : Option String
  title : Option String
  inputSchema : PyVal

/-- The `StructuredTool` the loop builds for one capability; the invocation
closure is represented by the session owner and the bound original tool name
it forwards to (`_call_mcp_tool`'s defaults `_session` and `_mcp_tool_name`).
-/
structure StructuredToolM where
  name : String
  description : String
  argsSchema : PyVal
  metadata : List (String × String)
  serverName : String
  mcpToolName : String

/-- `mcp_tool.description or mcp_tool.title or ""`. -/
def toolDescription (t : McpToolDef) : String :=
  let d := (t.description.getD "")
  if !d.isEmpty then d else t.title.getD ""

/-- The default input schema used when the capability supplies a falsy one. -/
def defaultInputSchema : PyVal :=
  .dict [("type", .str "object"), ("properties", .dict [])]

/-- The body of the per-capability loop (lines 230-269). -/
def buildTool (serverName kind : String) (t : McpToolDef) : StructuredToolM :=
  let toolName := serverName ++ "__" ++ t.name
  let d := toolDescription t
  let description :=
    if !d.isEmpty then "[MCP:" ++ serverName ++ "] " ++ d
    else "[MCP:" ++ serverName ++ "]"
  let inputSchema := if pyTruthy t.inputSchema then t.inputSchema else defaultInputSchema
  { name := toolName
    description := description
    argsSchema := inputSchema
    metadata := [("source", "mcp"), ("mcp_server", serverName),
                 ("mcp_tool", t.name), ("mcp_transport", kind)]
    serverName := serverName
    mcpToolName := t.name }

/-- All adapters built for one server's listed capabilities, in listing order.
-/
def buildServerTools (serverName kind : String) (ts : List McpToolDef) :
    List StructuredToolM :=
  ts.map (buildTool serverName kind)

/-- The outcome the environment supplies for one server's connection attempt,
by failure stage: opening the transport, entering the `ClientSession`,
`initialize()`, `list_tools()` — or success with the listed capabilities. -/
inductive ConnectOutcome where
  | failOpen (e : PyErr)
  | failSessionOpen (e : PyErr)
  | failInit (e : PyErr)
  | failListTools (e : PyErr)
  | ok (tools : List McpToolDef)

/-- The environment of a discovery pass: what happens when a given server's
transport is opened and its session driven. -/
structure World where
  connect : String → Transport → ConnectOutcome

/-- A resource registered on the exit stack: the transport context or the
`ClientSession` context of one server. -/
inductive Resource where
  | transport (server : String)
  | session (server : String)
deriving DecidableEq

/-- The server a registered resource belongs to. -/
def Resource.owner : Resource → String
  | .transport s => s
  | .session s => s

/-- The `try` body of the per-server branch: select and open the transport,
enter the session, initialize, list tools. Returns the metadata transport kind
(line 266: `"stdio" if "command" in cfg else "http"`) and the listed
capabilities, or the first raised exception — together with the resources that
were entered on the exit stack before the failure point. -/
def tryServer (w : World) (startPath serverName : String)
    (cfg : List (String × PyVal)) :
    Except PyErr (String × List McpToolDef) × List Resource :=
  match selectTransport startPath cfg with
  | .error e => (.error e, [])
  | .ok tr =>
    match w.connect serverName tr with
    | .failOpen e => (.error e, [])
    | .failSessionOpen e => (.error e, [.transport serverName])
    | .failInit e => (.error e, [.transport serverName, .session serverName])
    | .failListTools e => (.error e, [.transport serverName, .session serverName])
    | .ok ts =>
      ((.ok ((if hasKey cfg "command" then "stdio" else "http"), ts)),
       [.transport serverName, .session serverName])

/-- Line 183: the error recorded for a non-object server config. -/
def configNotObjectMsg (serverName : String) : String :=
  "MCP server '" ++ serverName ++ "' config must be an object."

/-- Lines 272-274: the error recorded when a server's attempt raises. -/
def connectErrorMsg (serverName : String) (e : PyErr) : String :=
  "Failed to connect MCP server '" ++ serverName ++ "': "
    ++ e.typeName ++ ": " ++ e.msg

/-- One iteration of the server loop (lines 181-275): tools built, errors
recorded, resources entered on the exit stack. A raised attempt is caught and
converted into one error string; the resources it had already entered stay
registered. -/
def processServer (w : World) (startPath : String) (entry : String × PyVal) :
    List StructuredToolM × List String × List Resource :=
  match entry.2 with
  | .dict cfg =>
    match tryServer w startPath entry.1 cfg with
    | (.error e, res) => ([], [connectErrorMsg entry.1 e], res)
    | (.ok (kind, ts), res) => (buildServerTools entry.1 kind ts, [], res)
  | _ => ([], [configNotObjectMsg entry.1], [])

/-- The whole server loop over an already-sorted item list: concatenated
tools, errors and stack registrations, in iteration order. -/
def openServers (w : World) (startPath : String) :
    List (String × PyVal) → List StructuredToolM × List String × List Resource
  | [] => ([], [], [])
  | entry :: rest =>
    let r := processServer w startPath entry
    let rs := openServers w startPath rest
    (r.1 ++ rs.1, r.2.1 ++ rs.2.1, r.2.2 ++ rs.2.2)

/-- Code-point-lexicographic `≤` on strings, Python's string ordering. -/
def charListLe : List Char → List Char → Bool
  | [], _ => true
  | _ :: _, [] => false
  | a :: as, b :: bs =>
    if a.val < b.val then true
    else if b.val < a.val then false
    else charListLe as bs

/-- The comparator of `sorted(servers.items(), key=lambda kv: kv[0])`. -/
def serverLe (a b : String × PyVal) : Bool :=
  charListLe a.1.data b.1.data

/-- Stable insertion into a sorted list (equal keys keep their order). -/
def insertServer (x : String × PyVal) :
    List (String × PyVal) → List (String × PyVal)
  | [] => [x]
  | y :: ys => if serverLe x y then x :: y :: ys else y :: insertServer x ys

/-- `sorted(servers.items(), key=lambda kv: kv[0])`: Python's sort is stable
and ascending, which any stable insertion sort reproduces exactly. -/
def sortServers (servers : List (String × PyVal)) : List (String × PyVal) :=
  servers.foldr insertServer []

/-- The aggregate yielded by `open_mcp_toolset`. -/
structure McpToolset where
  tools : List StructuredToolM
  configPath : Option String
  errors : List String

/-- Lines 153-157: the error recorded for an unreadable/unparsable config. -/
def readErrorMsg (configPath : String) (e : PyErr) : String :=
  "Failed to read " ++ configPath ++ ": " ++ e.typeName ++ ": " ++ e.msg

/-- Lines 161-170: the error recorded when no servers normalize out. -/
def noServersMsg (configPath : String) : String :=
  "No MCP servers configured in " ++ configPath ++ ". "
    ++ "Expected a top-level 'mcpServers'/'servers' object or a simplified server map."

/-- `open_mcp_toolset` (lines 134-277), with the filesystem externalized:
`configPath?` is the result of `find_mcp_config_path(start_path)` and
`parsed` the result of reading and `json.loads`-ing that file. Returns the
yielded toolset together with the exit stack's registered resources. -/
def open_mcp_toolset (w : World) (startPath : String)
    (configPath? : Option String) (parsed : Except PyErr PyVal) :
    McpToolset × List Resource :=
  match configPath? with
  | none => (⟨[], none, []⟩, [])
  | some configPath =>
    match parsed with
    | .error e => (⟨[], some configPath, [readErrorMsg configPath e]⟩, [])
    | .ok data =>
      let servers := extract_mcp_servers data
      if servers.isEmpty then
        (⟨[], some configPath, [noServersMsg configPath]⟩, [])
      else
        let r := openServers w startPath (sortServers servers)
        (⟨r.1, some configPath, r.2.1⟩, r.2.2)

/-- The `AsyncExitStack` unwind at scope exit, modelled from its contract:
registered contexts are exited in reverse registration order, each exactly
once, on every exit path. -/
def releaseOrder (acquired : List Resource) : List Resource :=
  acquired.reverse

/-- A remote outcome flagged as an error whose only text content is `"boom"`.
-/
def boomOutcome : CallToolResult :=
  ⟨true, some [⟨some "text", some (.str "boom"), none, "CallToolResult"⟩], none⟩

/-- A result outcome carrying `structuredContent = {"a": 1}` alongside a
content block that must be ignored. -/
def structuredExample : CallToolResult :=
  ⟨false, some [⟨some "text", some (.str "ignored"), none, "blk"⟩],
   some (.dict [("a", .int 1)])⟩

/-- A result outcome with no structured content and one text block `"ok"`. -/
def okTextExample : CallToolResult :=
  ⟨false, some [⟨some "text", some (.str "ok"), none, "blk"⟩], none⟩

/-- A discovery environment in which every connection succeeds and lists no
tools; used to instantiate universally quantified worlds in witnesses. -/
def emptyWorld : World := ⟨fun _ _ => .ok []⟩

/-- The environment of a two-server run in which server `alpha` is unreachable
and server `beta` succeeds with one capability. -/
def mixedWorld : World :=
  ⟨fun n _ =>
    if n == "alpha" then .failOpen ⟨"OSError", "unreachable"⟩
    else .ok [⟨"cap", some "d", none, .dict [("type", .str "object")]⟩]⟩

/-- The url-only config of the servers driven by `mixedWorld`. -/
def alphaCfg : List (String × PyVal) := [("url", .str "http://a")]

/-- See `alphaCfg`. -/
def betaCfg : List (String × PyVal) := [("url", .str "http://b")]

/-- The environment of the name-collision run: server `a` lists a capability
`b__c`, server `a__b` lists a capability `c`. -/
def collideWorld : World :=
  ⟨fun n _ =>
    if n == "a" then .ok [⟨"b__c", none, none, .null⟩]
    else .ok [⟨"c", none, none, .null⟩]⟩

/-- A config naming the two distinct servers `a` and `a__b`. -/
def collideConfig : PyVal :=
  .dict [("mcpServers",
    .dict [("a", .dict [("url", .str "http://x")]),
           ("a__b", .dict [("url", .str "http://y")])])]

/-- The environment of a run whose only server opens its transport and
session but fails during the `initialize` handshake. -/
def lateFailWorld : World := ⟨fun _ _ => .failInit ⟨"RuntimeError", "handshake"⟩⟩

/-- The url-only config of the server driven by `lateFailWorld`. -/
def gammaCfg : List (String × PyVal) := [("url", .str "http://g")]

/-- The environment of the SSE metadata run: a single succeeding server with
one capability. -/
def sseWorld : World := ⟨fun _ _ => .ok [⟨"cap", none, none, .null⟩]⟩

/-- A url-based server definition whose type marker is `"sse"`. -/
def sseCfg : List (String × PyVal) := [("url", .str "https://x"), ("type", .str "sse")]

/-- A plain streamable-HTTP server definition. -/
def httpCfgPlain : List (String × PyVal) := [("url", .str "https://u")]

/-- The same definition with a `headers` field added. -/
def httpCfgHeaders : List (String × PyVal) :=
  [("url", .str "https://u"),
   ("headers", .dict [("Authorization", .str "secret-token")])]

theorem flattened_eq_spec (kvs : List (String × PyVal)) :
    flattenedServers kvs = specFlattenedServers kvs := by
  unfold flattenedServers specFlattenedServers
  by_cases h1 : (candidateServers kvs).isEmpty
  · simp [h1]
  · have h1' : (candidateServers kvs).isEmpty = false := by simpa using h1
    by_cases h2 : (candidateServers kvs).all (fun kv => isDict kv.2)
    · have hf : (candidateServers kvs).filter (fun kv => isDict kv.2)
          = candidateServers kvs :=
        List.filter_eq_self.mpr (fun a ha => List.all_eq_true.mp h2 a ha)
      rw [hf, h1', h2]
      by_cases h3 : (candidateServers kvs).all (fun kv => looksLikeServer (asDict kv.2))
      · rw [h3]
        simp
      · have h3' : (candidateServers kvs).all (fun kv => looksLikeServer (asDict kv.2))
            = false := by simpa using h3
        rw [h3']
        simp
    · have h2' : (candidateServers kvs).all (fun kv => isDict kv.2) = false := by
        simpa using h2
      simp [h1', h2']

/-- C2: for every parsed document, `extract_mcp_servers` returns the
`mcpServers` mapping when it is a mapping, else the `servers` mapping when it
is a mapping, else the metadata-stripped top-level entries when at least one
exists, all are mappings and each carries a `command`, `url` or `type` key, and
the empty mapping in every other case (non-mapping input included) — i.e. it
coincides with the spec-worded normalization `specExtractServers`. -/
theorem extract_mcp_servers_matches_spec (data : PyVal) :
    extract_mcp_servers data = specExtractServers data := by
  unfold extract_mcp_servers specExtractServers
  by_cases hd : isDict data
  · simp only [hd]
    cases hm : groupField (asDict data) "mcpServers" with
    | some servers => simp [hm]
    | none =>
      cases hs : groupField (asDict data) "servers" with
      | some servers => simp [hm, hs]
      | none => simp [hm, hs, flattened_eq_spec]
  · simp [hd]

theorem formatBlock_eq_spec (b : ContentBlock) : formatBlock b = specBlockText b := by
  unfold formatBlock specBlockText
  cases hb : b.modelDumpJson <;> simp [hb, Option.getD]

theorem processServer_fail (w : World) (sp n : String) (cfg : List (String × PyVal))
    (e : PyErr) (res : List Resource)
    (h : tryServer w sp n cfg = (.error e, res)) :
    processServer w sp (n, .dict cfg) = ([], [connectErrorMsg n e], res) := by
  unfold processServer
  simp only []
  rw [h]

theorem processServer_ok (w : World) (sp n : String) (cfg : List (String × PyVal))
    (kind : String) (ts : List McpToolDef) (res : List Resource)
    (h : tryServer w sp n cfg = (.ok (kind, ts), res)) :
    processServer w sp (n, .dict cfg) = (buildServerTools n kind ts, [], res) := by
  unfold processServer
  simp only []
  rw [h]

theorem openServers_decomp (w : World) (sp : String) (l : List (String × PyVal)) :
    openServers w sp l
      = (l.flatMap (fun sv => (processServer w sp sv).1),
         l.flatMap (fun sv => (processServer w sp sv).2.1),
         l.flatMap (fun sv => (processServer w sp sv).2.2)) := by
  induction l with
  | nil => rfl
  | cons e rest ih => simp [openServers, ih]

theorem tryServer_res_owner (w : World) (sp n : String) (cfg : List (String × PyVal)) :
    ∀ x ∈ (tryServer w sp n cfg).2, x.owner = n := by
  unfold tryServer
  cases hs : selectTransport sp cfg with
  | error e => simp
  | ok tr =>
    cases hc : w.connect n tr <;> simp [hc, Resource.owner]

theorem tryServer_res_nodup (w : World) (sp n : String) (cfg : List (String × PyVal)) :
    (tryServer w sp n cfg).2.Nodup := by
  unfold tryServer
  cases hs : selectTransport sp cfg with
  | error e => simp
  | ok tr =>
    cases hc : w.connect n tr <;> simp [hc]

theorem processServer_res_owner (w : World) (sp : String) (entry : String × PyVal) :
    ∀ x ∈ (processServer w sp entry).2.2, x.owner = entry.1 := by
  obtain ⟨n, v⟩ := entry
  cases v with
  | dict cfg =>
    have h := tryServer_res_owner w sp n cfg
    unfold processServer
    simp only []
    cases htr : tryServer w sp n cfg with
    | mk r res =>
      cases r with
      | error e => simpa [htr] using h
      | ok p =>
        obtain ⟨kind, ts⟩ := p
        simpa [htr] using h
  | str s => simp [processServer]
  | int n2 => simp [processServer]
  | bool b => simp [processServer]
  | null => simp [processServer]
  | list xs => simp [processServer]

theorem processServer_res_nodup (w : World) (sp : String) (entry : String × PyVal) :
    (processServer w sp entry).2.2.Nodup := by
  obtain ⟨n, v⟩ := entry
  cases v with
  | dict cfg =>
    have h := tryServer_res_nodup w sp n cfg
    unfold processServer
    simp only []
    cases htr : tryServer w sp n cfg with
    | mk r res =>
      cases r with
      | error e => simpa [htr] using h
      | ok p =>
        obtain ⟨kind, ts⟩ := p
        simpa [htr] using h
  | str s => simp [processServer]
  | int n2 => simp [processServer]
  | bool b => simp [processServer]
  | null => simp [processServer]
  | list xs => simp [processServer]

theorem openServers_res_owner (w : World) (sp : String) (l : List (String × PyVal)) :
    ∀ x ∈ (openServers w sp l).2.2, x.owner ∈ l.map Prod.fst := by
  intro x hx
  rw [openServers_decomp] at hx
  simp only [List.mem_flatMap] at hx
  obtain ⟨sv, hsv, hxin⟩ := hx
  have := processServer_res_owner w sp sv x hxin
  rw [this]
  exact List.mem_map.mpr ⟨sv, hsv, rfl⟩

theorem openServers_res_nodup (w : World) (sp : String) (l : List (String × PyVal))
    (h : (l.map Prod.fst).Nodup) : (openServers w sp l).2.2.Nodup := by
  induction l with
  | nil => simp [openServers]
  | cons e rest ih =>
    simp only [List.map_cons, List.nodup_cons] at h
    have hrest := ih h.2
    have hthis := processServer_res_nodup w sp e
    simp only [openServers]
    rw [List.nodup_append]
    refine ⟨hthis, hrest, ?_⟩
    intro x hx hx2
    have h1 := processServer_res_owner w sp e x hx
    have h2 := openServers_res_owner w sp rest x hx2
    rw [h1] at h2
    exact h.1 h2

/-- C4: `_format_call_tool_result` returns the indented non-ASCII-preserving
JSON of the structured payload whenever present (content blocks ignored),
else the newline-join of the non-empty per-block texts (`"text"`-typed blocks
contribute their text, others their own JSON serialization when offered, else
their repr), and the empty string when neither payload kind is present —
i.e. it coincides with the spec-worded `specFormatResult`; checked on the
`{"a": 1}`, `"ok"`, absent-content and empty-content examples. -/
theorem format_call_tool_result_matches_spec :
    (∀ r, formatCallToolResult r = specFormatResult r)
    ∧ formatCallToolResult structuredExample = "\x7b\n  \"a\": 1\n\x7d"
    ∧ formatCallToolResult okTextExample = "ok"
    ∧ formatCallToolResult ⟨false, none, none⟩ = ""
    ∧ formatCallToolResult ⟨false, some [], none⟩ = "" := by
  have hfb : formatBlock = specBlockText := funext formatBlock_eq_spec
  refine ⟨?_, ?_, rfl, rfl, rfl⟩
  · intro r
    obtain ⟨isErr, content, sc⟩ := r
    cases sc with
    | some v => rfl
    | none =>
      cases content with
      | none => rfl
      | some blocks =>
        cases blocks with
        | nil => rfl
        | cons b bs => simp [formatCallToolResult, specFormatResult, hfb]
  · simp [formatCallToolResult, structuredExample, pyJsonDumps, jsonIndent,
      jsonQuote, jsonEscapeChar, List.attach]
    rfl

/-- C3: `_call_mcp_tool` forwards the named arguments unchanged to the owning
session's `call_tool` under the capability's original non-namespaced name
(which is exactly the name the adapter binds); an error-flagged outcome makes
it fail with the normalized text (or the fixed fallback when that text is
empty) and a non-error outcome returns the normalized text; in particular the
error outcome whose only text content is `"boom"` fails with message
`"boom"`. -/
theorem call_mcp_tool_forwards_and_reports :
    (∀ (sessionCall : String → List (String × PyVal) → CallToolResult)
        (name : String) (kwargs : List (String × PyVal)),
      (callMcpTool sessionCall name kwargs).calledName = name
      ∧ (callMcpTool sessionCall name kwargs).calledArgs = kwargs
      ∧ (callMcpTool sessionCall name kwargs).outcome =
          (if (sessionCall name kwargs).isError then
            Except.error
              (if !(formatCallToolResult (sessionCall name kwargs)).isEmpty then
                formatCallToolResult (sessionCall name kwargs)
              else "MCP tool call failed")
          else Except.ok (formatCallToolResult (sessionCall name kwargs))))
    ∧ (callMcpTool (fun _ _ => boomOutcome) "t" []).outcome = Except.error "boom"
    ∧ (∀ serverName kind t, (buildTool serverName kind t).mcpToolName = t.name) :=
  ⟨fun _ _ _ => ⟨rfl, rfl, rfl⟩, rfl, fun _ _ _ => rfl⟩

/-- C6: `_normalize_stdio_command` keeps an explicitly given command string
and non-empty argument list as they are (no re-splitting), and shell-lexes a
lone command string containing whitespace into executable plus arguments; in
particular `"npx -y mcp-remote https://example.com"` with no `args` resolves
to `npx` with `["-y", "mcp-remote", "https://example.com"]`. -/
theorem normalize_stdio_command_behaviour :
    (∀ (command : String) (args : List String), args ≠ [] →
      normalizeStdioCommand (.str command) (.list (args.map PyVal.str))
        = .ok (command, args))
    ∧ (∀ (command t : String) (ts : List String),
        command.data.any pyIsSpace = true →
        shlexSplit command = .ok (t :: ts) →
        normalizeStdioCommand (.str command) .null = .ok (t, ts))
    ∧ normalizeStdioCommand (.str "npx -y mcp-remote https://example.com") .null
        = .ok ("npx", ["-y", "mcp-remote", "https://example.com"]) := by
  have hmap : ∀ l : List String, l.map (pyStr ∘ PyVal.str) = l := by
    intro l
    induction l with
    | nil => rfl
    | cons a as ih => simp only [List.map_cons, Function.comp, pyStr, ih]
  refine ⟨?_, ?_, rfl⟩
  · intro command args hne
    obtain ⟨a, as, rfl⟩ := List.exists_cons_of_ne_nil hne
    by_cases hc : command.isEmpty
    · simp [normalizeStdioCommand, hc, pyStr, hmap as]
    · have hc' : command.isEmpty = false := by simpa using hc
      simp [normalizeStdioCommand, hc', pyStr, hmap as]
  · intro command t ts hsp hsplit
    have hne : command.isEmpty = false := by
      cases hc : command.isEmpty
      · rfl
      · exfalso
        rw [(String.isEmpty_iff command).mp hc] at hsp
        simp at hsp
    simp [normalizeStdioCommand, hne, hsp, hsplit]

/-- Witness for C6 at concrete inputs: an explicit argument list is kept, and
a lone two-word command is split. -/
theorem normalize_stdio_command_behaviour_witness :
    normalizeStdioCommand (.str "npx") (.list [.str "-y"]) = .ok ("npx", ["-y"])
    ∧ normalizeStdioCommand (.str "a b") .null = .ok ("a", ["b"]) :=
  ⟨normalize_stdio_command_behaviour.1 "npx" ["-y"] (by decide),
   normalize_stdio_command_behaviour.2.1 "a b" "a" ["b"] (by decide) rfl⟩

/-- C7: `open_mcp_toolset` with no config file found yields no tools, no
config path and no errors; with a found but unparsable file it yields no
tools and exactly the one error describing the read/parse failure; with a
parsed file from which no servers normalize it yields no tools and exactly
the one error naming the expected configuration shapes. -/
theorem open_mcp_toolset_empty_cases :
    (∀ (w : World) (sp : String) (parsed : Except PyErr PyVal),
      open_mcp_toolset w sp none parsed = (⟨[], none, []⟩, []))
    ∧ (∀ (w : World) (sp path : String) (e : PyErr),
        open_mcp_toolset w sp (some path) (.error e)
          = (⟨[], some path, [readErrorMsg path e]⟩, []))
    ∧ (∀ (w : World) (sp path : String) (data : PyVal),
        extract_mcp_servers data = [] →
        open_mcp_toolset w sp (some path) (.ok data)
          = (⟨[], some path, [noServersMsg path]⟩, [])) := by
  refine ⟨fun _ _ _ => rfl, fun _ _ _ _ => rfl, ?_⟩
  intro w sp path data h
  simp [open_mcp_toolset, h]

/-- Witness for C7: a parsed document that is not a mapping normalizes to no
servers and yields exactly the descriptive error. -/
theorem open_mcp_toolset_empty_cases_witness :
    open_mcp_toolset emptyWorld "/ws" (some "/ws/.mcp.json") (.ok (.int 3))
      = (⟨[], some "/ws/.mcp.json", [noServersMsg "/ws/.mcp.json"]⟩, []) :=
  open_mcp_toolset_empty_cases.2.2 emptyWorld "/ws" "/ws/.mcp.json" (.int 3) rfl

theorem hasKey_of_dictGetD_str (cfg : List (String × PyVal)) (k u : String)
    (h : dictGetD cfg k = .str u) : hasKey cfg k = true := by
  unfold dictGetD dictGet at h
  unfold hasKey
  cases hf : cfg.find? (fun kv => kv.1 == k) with
  | none =>
    rw [hf] at h
    exact PyVal.noConfusion h
  | some kv =>
    have hp := List.find?_some hf
    have hm := List.mem_of_find?_eq_some hf
    exact List.any_eq_true.mpr ⟨kv, hm, hp⟩

/-- C1: per-server failure isolation in the discovery loop. The aggregate
error and tool lists decompose server by server; a server whose attempt
raises contributes exactly one error naming it and no tools (the exception is
caught, so the loop itself never raises); a server whose attempt succeeds
contributes all its adapters and no error; and in the two-server instance —
first server failing, second succeeding — the result is exactly the second
server's tools plus the one error naming the first. -/
theorem open_mcp_toolset_isolates_server_failures :
    (∀ (w : World) (sp : String) (l : List (String × PyVal)),
      (openServers w sp l).2.1
        = l.flatMap (fun sv => (processServer w sp sv).2.1))
    ∧ (∀ (w : World) (sp : String) (l : List (String × PyVal)),
        (openServers w sp l).1
          = l.flatMap (fun sv => (processServer w sp sv).1))
    ∧ (∀ (w : World) (sp n : String) (cfg : List (String × PyVal))
        (e : PyErr) (res : List Resource),
        tryServer w sp n cfg = (.error e, res) →
        processServer w sp (n, .dict cfg) = ([], [connectErrorMsg n e], res))
    ∧ (∀ (w : World) (sp n : String) (cfg : List (String × PyVal))
        (kind : String) (ts : List McpToolDef) (res : List Resource),
        tryServer w sp n cfg = (.ok (kind, ts), res) →
        processServer w sp (n, .dict cfg) = (buildServerTools n kind ts, [], res))
    ∧ (∀ (w : World) (sp a : String) (ca : List (String × PyVal))
        (b : String) (cb : List (String × PyVal)) (e : PyErr)
        (resA : List Resource) (kind : String) (ts : List McpToolDef)
        (resB : List Resource),
        serverLe (a, .dict ca) (b, .dict cb) = true →
        tryServer w sp a ca = (.error e, resA) →
        tryServer w sp b cb = (.ok (kind, ts), resB) →
        openServers w sp (sortServers [(a, .dict ca), (b, .dict cb)])
          = (buildServerTools b kind ts, [connectErrorMsg a e], resA ++ resB)) := by
  refine ⟨?_, ?_, processServer_fail, processServer_ok, ?_⟩
  · intro w sp l
    rw [openServers_decomp]
  · intro w sp l
    rw [openServers_decomp]
  · intro w sp a ca b cb e resA kind ts resB hle hfa hfb
    have hsort : sortServers [(a, .dict ca), (b, .dict cb)]
        = [(a, .dict ca), (b, .dict cb)] := by
      simp [sortServers, insertServer, hle]
    rw [hsort]
    have h1 := processServer_fail w sp a ca e resA hfa
    have h2 := processServer_ok w sp b cb kind ts resB hfb
    simp [openServers, h1, h2]

/-- Witness for C1 at a concrete two-server configuration: `alpha` fails,
`beta` succeeds; the result keeps `beta`'s tools and exactly one error naming
`alpha`. -/
theorem open_mcp_toolset_isolates_server_failures_witness :
    openServers mixedWorld "/ws"
        (sortServers [("alpha", .dict alphaCfg), ("beta", .dict betaCfg)])
      = (buildServerTools "beta" "http"
           [⟨"cap", some "d", none, .dict [("type", .str "object")]⟩],
         [connectErrorMsg "alpha" ⟨"OSError", "unreachable"⟩],
         [] ++ [.transport "beta", .session "beta"]) :=
  open_mcp_toolset_isolates_server_failures.2.2.2.2 mixedWorld "/ws"
    "alpha" alphaCfg "beta" betaCfg ⟨"OSError", "unreachable"⟩ []
    "http" [⟨"cap", some "d", none, .dict [("type", .str "object")]⟩]
    [.transport "beta", .session "beta"] rfl rfl rfl

/-- Counterexample to C5's distinctness consequence: the adapters of the two
distinct servers `a` (capability `b__c`) and `a__b` (capability `c`) are both
named `a__b__c`, so tool names of distinct servers are not pairwise distinct
in general. -/
theorem tool_names_collide_across_servers :
    ((open_mcp_toolset collideWorld "/ws" (some "/ws/.mcp.json")
        (.ok collideConfig)).1.tools.map (fun t => t.serverName)
      = ["a", "a__b"])
    ∧ ((open_mcp_toolset collideWorld "/ws" (some "/ws/.mcp.json")
        (.ok collideConfig)).1.tools.map (fun t => t.name)
      = ["a__b__c", "a__b__c"])
    ∧ ¬ ((open_mcp_toolset collideWorld "/ws" (some "/ws/.mcp.json")
        (.ok collideConfig)).1.tools.map (fun t => t.name)).Nodup := by
  refine ⟨rfl, rfl, fun h => ?_⟩
  have e : (open_mcp_toolset collideWorld "/ws" (some "/ws/.mcp.json")
      (.ok collideConfig)).1.tools.map (fun t => t.name)
      = ["a__b__c", "a__b__c"] := rfl
  rw [e] at h
  simp at h

/-- C5 (amended): every adapter is named `{serverName}__{capabilityName}`
with no exception, and two adapters from distinct servers exposing
capabilities with the same name have distinct tool names. -/
theorem namespaced_tool_names :
    (∀ (serverName kind : String) (ts : List McpToolDef),
      (buildServerTools serverName kind ts).map (fun t => t.name)
        = ts.map (fun t => serverName ++ "__" ++ t.name))
    ∧ (∀ (s1 s2 k1 k2 : String) (t1 t2 : McpToolDef), s1 ≠ s2 →
        t1.name = t2.name →
        (buildTool s1 k1 t1).name ≠ (buildTool s2 k2 t2).name) := by
  constructor
  · intro s k ts
    simp [buildServerTools, buildTool]
  · intro s1 s2 k1 k2 t1 t2 hs ht heq
    apply hs
    have h1 : (buildTool s1 k1 t1).name = s1 ++ "__" ++ t1.name := rfl
    have h2 : (buildTool s2 k2 t2).name = s2 ++ "__" ++ t2.name := rfl
    rw [h1, h2, ht] at heq
    have hd : (s1 ++ "__").data ++ t2.name.data
        = (s2 ++ "__").data ++ t2.name.data := by
      have hcongr := congrArg String.data heq
      simpa [String.data_append] using hcongr
    have hs12 : s1 ++ "__" = s2 ++ "__" :=
      String.ext (List.append_cancel_right hd)
    have hd2 : s1.data ++ ("__" : String).data
        = s2.data ++ ("__" : String).data := by
      have hcongr := congrArg String.data hs12
      simpa [String.data_append] using hcongr
    exact String.ext (List.append_cancel_right hd2)

/-- Witness for the amended C5: same capability name `x` under the distinct
servers `a` and `b` yields distinct tool names. -/
theorem namespaced_tool_names_witness :
    (buildTool "a" "stdio" ⟨"x", none, none, .null⟩).name
      ≠ (buildTool "b" "http" ⟨"x", none, none, .null⟩).name :=
  namespaced_tool_names.2 "a" "b" "stdio" "http"
    ⟨"x", none, none, .null⟩ ⟨"x", none, none, .null⟩ (by decide) rfl

/-- C8: the exit-stack model of the toolset scope. Releases happen in reverse
registration order; the registered resources of a pass are exactly the
concatenation of each server's registrations in iteration order (so a later
server's failure never unregisters an earlier server's resources); resources
a failing server had already entered remain registered for release at scope
end; and with pairwise-distinct server names every registered resource is
released exactly once. -/
theorem toolset_scope_releases_all_resources :
    (∀ acq : List Resource, releaseOrder acq = acq.reverse)
    ∧ (∀ (w : World) (sp : String) (l : List (String × PyVal)),
        (openServers w sp l).2.2
          = l.flatMap (fun sv => (processServer w sp sv).2.2))
    ∧ (∀ (w : World) (sp : String) (l : List (String × PyVal)) (n : String)
        (cfg : List (String × PyVal)) (e : PyErr) (res : List Resource),
        (n, PyVal.dict cfg) ∈ l →
        tryServer w sp n cfg = (.error e, res) →
        ∀ x ∈ res, x ∈ (openServers w sp l).2.2)
    ∧ (∀ (w : World) (sp : String) (l : List (String × PyVal)),
        (l.map Prod.fst).Nodup →
        ∀ x ∈ (openServers w sp l).2.2,
          (releaseOrder ((openServers w sp l).2.2)).count x = 1) := by
  refine ⟨fun _ => rfl, ?_, ?_, ?_⟩
  · intro w sp l
    rw [openServers_decomp]
  · intro w sp l n cfg e res hmem htry x hx
    rw [openServers_decomp]
    simp only [List.mem_flatMap]
    refine ⟨(n, .dict cfg), hmem, ?_⟩
    rw [processServer_fail w sp n cfg e res htry]
    exact hx
  · intro w sp l hnd x hx
    have hnodup := openServers_res_nodup w sp l hnd
    unfold releaseOrder
    exact List.count_eq_one_of_mem (List.nodup_reverse.mpr hnodup)
      (List.mem_reverse.mpr hx)

/-- Witness for C8: the transport a handshake-failing server had opened is
still registered, and its session is released exactly once. -/
theorem toolset_scope_releases_all_resources_witness :
    Resource.transport "gamma"
      ∈ (openServers lateFailWorld "/ws" [("gamma", .dict gammaCfg)]).2.2
    ∧ (releaseOrder
        ((openServers lateFailWorld "/ws" [("gamma", .dict gammaCfg)]).2.2)).count
          (Resource.session "gamma") = 1 :=
  ⟨toolset_scope_releases_all_resources.2.2.1 lateFailWorld "/ws"
      [("gamma", .dict gammaCfg)] "gamma" gammaCfg ⟨"RuntimeError", "handshake"⟩
      [.transport "gamma", .session "gamma"]
      (List.mem_singleton.mpr rfl) rfl (.transport "gamma")
      (List.mem_cons_self _ _),
   toolset_scope_releases_all_resources.2.2.2 lateFailWorld "/ws"
      [("gamma", .dict gammaCfg)] (by simp) (.session "gamma")
      (by
        simp only [show (openServers lateFailWorld "/ws"
            [("gamma", .dict gammaCfg)]).2.2
          = [Resource.transport "gamma", Resource.session "gamma"] from rfl]
        simp)⟩

/-- Counterexample to C9: for a url-based server with type `"sse"` the SSE
binding is selected for the connection, but the adapter metadata records the
transport kind `"http"`, not `"sse"`. -/
theorem sse_metadata_records_http :
    selectTransport "/ws" sseCfg = .ok (.sse "https://x" none)
    ∧ (openServers sseWorld "/ws" [("s", .dict sseCfg)]).1.map (fun t => t.metadata)
        = [[("source", "mcp"), ("mcp_server", "s"),
            ("mcp_tool", "cap"), ("mcp_transport", "http")]]
    ∧ ("http" : String) ≠ "sse" :=
  ⟨rfl, rfl, by decide⟩

/-- C9 (amended): the adapter metadata records `"stdio"` for command-based
servers and `"http"` for every url-based server — including those whose
`type` is `"sse"` — and that kind lands verbatim in each adapter's
`mcp_transport` metadata entry. -/
theorem adapter_metadata_transport_kind :
    (∀ (w : World) (sp n : String) (cfg : List (String × PyVal))
        (kind : String) (ts : List McpToolDef) (res : List Resource),
      tryServer w sp n cfg = (.ok (kind, ts), res) →
      kind = (if hasKey cfg "command" then "stdio" else "http"))
    ∧ (∀ (serverName kind : String) (t : McpToolDef),
        (buildTool serverName kind t).metadata
          = [("source", "mcp"), ("mcp_server", serverName),
             ("mcp_tool", t.name), ("mcp_transport", kind)]) := by
  constructor
  · intro w sp n cfg kind ts res h
    unfold tryServer at h
    cases hs : selectTransport sp cfg with
    | error e =>
      rw [hs] at h
      exact absurd h (by simp)
    | ok tr =>
      cases hc : w.connect n tr <;> simp [hs, hc] at h
      simp_all
  · intro s k t
    rfl

/-- Witness for the amended C9: the succeeding SSE-typed server's metadata
kind evaluates to `"http"`. -/
theorem adapter_metadata_transport_kind_witness :
    ("http" : String) = (if hasKey sseCfg "command" then "stdio" else "http") :=
  adapter_metadata_transport_kind.1 sseWorld "/ws" "s" sseCfg "http"
    [⟨"cap", none, none, .null⟩] [.transport "s", .session "s"] rfl

/-- C10: for a url-based server whose type marker is not `"sse"`, the
streamable-HTTP transport is opened from the URL alone — any two such configs
with the same URL (in particular two differing only in their `headers` field)
produce identical transport-open parameters, so configured headers are
silently dropped; headers are passed only to the SSE binding. -/
theorem streamable_http_ignores_headers :
    (∀ (sp : String) (cfg : List (String × PyVal)) (url : String),
      hasKey cfg "command" = false →
      dictGetD cfg "url" = .str url →
      url.isEmpty = false →
      isStrVal (dictGetD cfg "type") "sse" = false →
      selectTransport sp cfg = .ok (.http url))
    ∧ (∀ (sp : String) (cfg1 cfg2 : List (String × PyVal)) (url : String),
        hasKey cfg1 "command" = false → hasKey cfg2 "command" = false →
        dictGetD cfg1 "url" = .str url → dictGetD cfg2 "url" = .str url →
        url.isEmpty = false →
        isStrVal (dictGetD cfg1 "type") "sse" = false →
        isStrVal (dictGetD cfg2 "type") "sse" = false →
        selectTransport sp cfg1 = selectTransport sp cfg2)
    ∧ (∀ (sp : String) (cfg : List (String × PyVal)) (url : String),
        hasKey cfg "command" = false →
        dictGetD cfg "url" = .str url →
        url.isEmpty = false →
        isStrVal (dictGetD cfg "type") "sse" = true →
        selectTransport sp cfg = .ok (.sse url (coerceHeaders cfg))) := by
  have hmain : ∀ (sp : String) (cfg : List (String × PyVal)) (url : String),
      hasKey cfg "command" = false →
      dictGetD cfg "url" = .str url →
      url.isEmpty = false →
      isStrVal (dictGetD cfg "type") "sse" = false →
      selectTransport sp cfg = .ok (.http url) := by
    intro sp cfg url h1 h2 h3 h4
    have hu := hasKey_of_dictGetD_str cfg "url" url h2
    simp [selectTransport, h1, hu, h2, h3, h4]
  refine ⟨hmain, ?_, ?_⟩
  · intro sp cfg1 cfg2 url h1 h1b h2 h2b h3 h4 h4b
    rw [hmain sp cfg1 url h1 h2 h3 h4, hmain sp cfg2 url h1b h2b h3 h4b]
  · intro sp cfg url h1 h2 h3 h4
    have hu := hasKey_of_dictGetD_str cfg "url" url h2
    simp [selectTransport, h1, hu, h2, h3, h4]

/-- Witness for C10: adding a `headers` field to a streamable-HTTP server
leaves the opened transport parameters unchanged. -/
theorem streamable_http_ignores_headers_witness :
    selectTransport "/ws" httpCfgPlain = .ok (.http "https://u")
    ∧ selectTransport "/ws" httpCfgPlain = selectTransport "/ws" httpCfgHeaders :=
  ⟨streamable_http_ignores_headers.1 "/ws" httpCfgPlain "https://u" rfl rfl rfl rfl,
   streamable_http_ignores_headers.2.1 "/ws" httpCfgPlain httpCfgHeaders
     "https://u" rfl rfl rfl rfl rfl rfl rfl⟩

end McpTools
